import Mathlib

/-!
# Ouisync — verification of the replicated storage engine spec against the code

Shallow embedding of the parts of the ouisync source that the spec's claims
are about:

* `src/lib/src/protocol/summary.rs` — node states, multi-block presence,
  summary builders (claims C9, C10);
* `src/lib/src/block/tracker.rs` — the missing-block tracker (claims C1, C3);
* `src/lib/src/network/pending.rs` — the pending-request table (claim C8);
* `src/src/network/client.rs` — the client's block-response handler (claim C4);
* `src/lib/src/store/mod.rs` — snapshot pruning and `find_block` (claims C2, C7);
* `src/lib/src/index/branch_data.rs` — `insert_block` / `remove_block`
  (claims C5, C6).

Machine integers that can overflow in the source are modelled as `Nat` with
explicit `% 2^w` where it matters; fallible operations return `Except`/`Option`.
Definitions whose source is not part of this tree (only callers are) are
modelled from the spec and carry a doc comment starting `Modelled from the
spec:`.
-/

namespace Ouisync

/-! ## Association-list helpers

The source keeps its tables in `HashMap`/`BTreeMap`/sqlite tables; here they
are association lists keyed by `Nat` with last-write-wins replacement.
-/

/-- First value bound to key `k`. -/
def alookup {α : Type} (k : Nat) : List (Nat × α) → Option α
  | [] => none
  | (k', v) :: rest => if k' = k then some v else alookup k rest

/-- Bind `k ↦ v`, replacing any previous binding of `k`. -/
def ainsert {α : Type} (k : Nat) (v : α) (l : List (Nat × α)) : List (Nat × α) :=
  (k, v) :: l.filter (fun p => p.1 ≠ k)

/-- Remove every binding of `k`. -/
def aerase {α : Type} (k : Nat) (l : List (Nat × α)) : List (Nat × α) :=
  l.filter (fun p => p.1 ≠ k)

/-- Apply `f` to the value bound to `k` (in place), if any. -/
def aupdate {α : Type} (k : Nat) (f : α → α) (l : List (Nat × α)) : List (Nat × α) :=
  l.map (fun p => if p.1 = k then (p.1, f p.2) else p)

theorem alookup_ainsert {α : Type} (k : Nat) (v : α) (l : List (Nat × α)) :
    alookup k (ainsert k v l) = some v := by
  simp [ainsert, alookup]

theorem alookup_aerase_ne {α : Type} {k k' : Nat} (l : List (Nat × α))
    (h : k' ≠ k) : alookup k' (aerase k l) = alookup k' l := by
  have hkk : ¬k = k' := fun hh => h hh.symm
  induction l with
  | nil => rfl
  | cons p rest ih =>
    obtain ⟨a, b⟩ := p
    by_cases hp : a = k
    · simp [aerase, alookup, hp, hkk] at *
      exact ih
    · by_cases ha : a = k'
      · simp [aerase, alookup, hp, ha, h]
      · simp [aerase, alookup, hp, ha] at *
        exact ih

theorem alookup_ainsert_ne {α : Type} {k k' : Nat} (v : α) (l : List (Nat × α))
    (h : k' ≠ k) : alookup k' (ainsert k v l) = alookup k' l := by
  have hkk : ¬k = k' := fun hh => h hh.symm
  have : alookup k' (ainsert k v l) = alookup k' (aerase k l) := by
    simp [ainsert, aerase, alookup, hkk]
  rw [this, alookup_aerase_ne l h]

theorem alookup_aupdate {α : Type} (k : Nat) (f : α → α) (l : List (Nat × α)) :
    alookup k (aupdate k f l) = (alookup k l).map f := by
  induction l with
  | nil => rfl
  | cons p rest ih =>
    obtain ⟨a, b⟩ := p
    simp only [aupdate, List.map]
    by_cases hp : a = k
    · subst hp
      rw [if_pos (rfl : (a, b).1 = a)]
      simp [alookup, aupdate]
    · rw [if_neg hp]
      simp [alookup, aupdate, hp] at *
      exact ih

theorem alookup_aupdate_ne {α : Type} {k k' : Nat} (f : α → α) (l : List (Nat × α))
    (h : k' ≠ k) : alookup k' (aupdate k f l) = alookup k' l := by
  have hkk : ¬k = k' := fun hh => h hh.symm
  induction l with
  | nil => rfl
  | cons p rest ih =>
    obtain ⟨a, b⟩ := p
    simp only [aupdate, List.map]
    by_cases hp : a = k
    · subst hp
      rw [if_pos (rfl : (a, b).1 = a)]
      simp [alookup, aupdate, hkk] at *
      exact ih
    · rw [if_neg hp]
      by_cases hq : a = k'
      · simp [alookup, aupdate, hq]
      · simp [alookup, aupdate, hq] at *
        exact ih

/-! ## `protocol/summary.rs` — node states and block presence -/

/-- `NodeState` (summary.rs): completeness/approval state of an index node. -/
inductive NodeState : Type where
  | incomplete
  | complete
  | approved
  | rejected
deriving DecidableEq, Repr

/-- `NodeState::update` (summary.rs). The source's `unreachable!()` arm for the
`(Approved, Rejected)` / `(Rejected, Approved)` combinations is modelled as
`none`; the match-arm order reproduces the source's. -/
def NodeState.update : NodeState → NodeState → Option NodeState
  | .incomplete, _ => some .incomplete
  | _, .incomplete => some .incomplete
  | .complete, _ => some .complete
  | _, .complete => some .complete
  | .approved, .approved => some .approved
  | .rejected, .rejected => some .rejected
  | .approved, .rejected => none
  | .rejected, .approved => none

/-- `SingleBlockPresence` (summary.rs). -/
inductive SingleBlockPresence : Type where
  | missing
  | present
  | expired
deriving DecidableEq, Repr

/-- Checksums are 16-byte arrays in the source; `u128::to_le_bytes` /
`try_into` is a bijection between them and `u128`, so they are modelled as
`Nat` values `< 2^128`. -/
abbrev Checksum := Nat

/-- The all-zeros sentinel checksum `NONE` (summary.rs). -/
def NONE_CHECKSUM : Checksum := 0

/-- The all-ones sentinel checksum `FULL` (summary.rs), `u128::MAX`. -/
def FULL_CHECKSUM : Checksum := 2 ^ 128 - 1

/-- `MultiBlockPresence` (summary.rs). -/
inductive MultiBlockPresence : Type where
  | none
  | some (c : Checksum)
  | full
deriving DecidableEq, Repr

/-- `MultiBlockPresence::is_outdated` (summary.rs). -/
def MultiBlockPresence.is_outdated : MultiBlockPresence → MultiBlockPresence → Bool
  | .some lhs, .some rhs => lhs ≠ rhs
  | .full, _ => false
  | _, .none => false
  | .none, _ => true
  | _, .full => true

/-- `MultiBlockPresence::checksum` (summary.rs): the byte encoding used by the
sqlite `Encode` impl, as its `u128` value. -/
def MultiBlockPresence.checksum : MultiBlockPresence → Checksum
  | .none => NONE_CHECKSUM
  | .some c => c
  | .full => FULL_CHECKSUM

/-- `impl Decode for MultiBlockPresence` (summary.rs): decodes the 16-byte
value back into a variant, mapping the sentinels to `None`/`Full`. -/
def MultiBlockPresence.decode (c : Checksum) : MultiBlockPresence :=
  if c = NONE_CHECKSUM then .none
  else if c = FULL_CHECKSUM then .full
  else .some c

/-- `clamp` (summary.rs): keeps a digest away from the `None`/`Full`
sentinels. -/
def clamp (s : Nat) : Nat :=
  if s = 0 then 1
  else if s = 2 ^ 128 - 1 then 2 ^ 128 - 2
  else s

/-- Model of the `Xxh3Default` streaming-hash state: the sequence of checksum
bytes fed to it (as `u128` values). -/
abbrev Xxh3State := List Nat

/-- Model of `Xxh3::digest128`: some definite function of the fed data,
reduced mod `2^128` as the real digest is a `u128`. -/
def xxh3Digest128 (st : Xxh3State) : Nat :=
  (st.foldl Nat.pair 0) % 2 ^ 128

/-- `BuilderState` (summary.rs). -/
inductive BuilderState : Type where
  | init
  | none
  | some
  | full
deriving DecidableEq, Repr

/-- `MultiBlockPresenceBuilder` (summary.rs). -/
structure MultiBlockPresenceBuilder : Type where
  state : BuilderState
  hasher : Xxh3State
deriving DecidableEq, Repr

/-- `MultiBlockPresenceBuilder::new` (summary.rs). -/
def MultiBlockPresenceBuilder.new : MultiBlockPresenceBuilder :=
  { state := .init, hasher := [] }

/-- `MultiBlockPresenceBuilder::update` (summary.rs). -/
def MultiBlockPresenceBuilder.update (b : MultiBlockPresenceBuilder)
    (p : MultiBlockPresence) : MultiBlockPresenceBuilder :=
  { state :=
      match b.state, p with
      | .init, .none => .none
      | .init, .some _ => .some
      | .init, .full => .full
      | .none, .none => .none
      | .none, .some _ => .some
      | .none, .full => .some
      | .some, _ => .some
      | .full, .none => .some
      | .full, .some _ => .some
      | .full, .full => .full
    hasher := b.hasher ++ [p.checksum] }

/-- `MultiBlockPresenceBuilder::build` (summary.rs). -/
def MultiBlockPresenceBuilder.build (b : MultiBlockPresenceBuilder) :
    MultiBlockPresence :=
  match b.state with
  | .init => .none
  | .none => .none
  | .some => .some (clamp (xxh3Digest128 b.hasher))
  | .full => .full

/-- `Summary` (summary.rs). -/
structure Summary : Type where
  state : NodeState
  block_presence : MultiBlockPresence
deriving DecidableEq, Repr

/-- A leaf node as consumed by `Summary::from_leaves`: only the presence field
is read there. -/
structure LeafPresence : Type where
  block_presence : SingleBlockPresence
deriving DecidableEq, Repr

/-- An inner node as consumed by `Summary::from_inners`: its summary, plus
whether the node `is_empty()` (empty nodes are skipped by the source). -/
structure InnerSummary : Type where
  is_empty : Bool
  summary : Summary
deriving DecidableEq, Repr

/-- `Summary::from_leaves` (summary.rs). -/
def Summary.from_leaves (nodes : List LeafPresence) : Summary :=
  let builder := nodes.foldl
    (fun b node =>
      match node.block_presence with
      | .missing => b.update .none
      | .expired => b.update .full
      | .present => b.update .full)
    MultiBlockPresenceBuilder.new
  { state := .complete, block_presence := builder.build }

/-- One iteration of the loop in `Summary::from_inners` (summary.rs): skip
empty nodes, otherwise update the presence builder and the running state. -/
def innersStep (acc : Option NodeState × MultiBlockPresenceBuilder)
    (node : InnerSummary) : Option NodeState × MultiBlockPresenceBuilder :=
  if node.is_empty then acc
  else
    (acc.1.bind (fun s => s.update node.summary.state),
      acc.2.update node.summary.block_presence)

/-- `Summary::from_inners` (summary.rs). The state fold threads the
`NodeState::update` partiality through `Option`: a `none` result means the
source would have hit the `unreachable!()` panic. -/
def Summary.from_inners (nodes : List InnerSummary) : Option Summary :=
  let r := nodes.foldl innersStep (some .complete, MultiBlockPresenceBuilder.new)
  r.1.map (fun s => { state := s, block_presence := r.2.build })

/-- Folding the builder over a list of presences, as `from_leaves` /
`from_inners` do. -/
def buildFrom (ps : List MultiBlockPresence) : MultiBlockPresence :=
  (ps.foldl MultiBlockPresenceBuilder.update MultiBlockPresenceBuilder.new).build

/-! ### C9 — built checksums avoid the sentinels; sqlite round trip -/

theorem clamp_ne_sentinels (s : Nat) :
    clamp s ≠ NONE_CHECKSUM ∧ clamp s ≠ FULL_CHECKSUM := by
  unfold clamp NONE_CHECKSUM FULL_CHECKSUM
  split
  · exact ⟨by decide, by decide⟩
  · split
    · exact ⟨by decide, by decide⟩
    · next h0 hf => exact ⟨h0, hf⟩

theorem buildFrom_some_shape (ps : List MultiBlockPresence) :
    buildFrom ps = .none ∨ buildFrom ps = .full ∨
    ∃ d, buildFrom ps = .some (clamp d) := by
  unfold buildFrom MultiBlockPresenceBuilder.build
  cases h : (ps.foldl MultiBlockPresenceBuilder.update MultiBlockPresenceBuilder.new).state
  · exact Or.inl rfl
  · exact Or.inl rfl
  · exact Or.inr (Or.inr ⟨_, rfl⟩)
  · exact Or.inr (Or.inl rfl)

theorem decode_checksum_of_built (p : MultiBlockPresence)
    (hp : p = .none ∨ p = .full ∨ ∃ d, p = .some (clamp d)) :
    MultiBlockPresence.decode p.checksum = p := by
  rcases hp with h | h | ⟨d, h⟩ <;> subst h
  · simp [MultiBlockPresence.decode, MultiBlockPresence.checksum]
  · simp only [MultiBlockPresence.decode, MultiBlockPresence.checksum]
    rw [if_neg (by decide)]
    simp
  · obtain ⟨h0, hf⟩ := clamp_ne_sentinels d
    simp [MultiBlockPresence.decode, MultiBlockPresence.checksum, h0, hf]

/-- C9: a `MultiBlockPresence` produced by `MultiBlockPresenceBuilder::build`
never carries the all-zeros (`NONE`) or all-ones (`FULL`) sentinel in its
`Some` variant, and consequently the sqlite `Encode` (the `checksum` bytes)
followed by `Decode` round-trips any built value, as well as `None` and
`Full`, to the original variant. -/
theorem multi_block_presence_roundtrip (ps : List MultiBlockPresence) :
    (∀ c, buildFrom ps = .some c → c ≠ NONE_CHECKSUM ∧ c ≠ FULL_CHECKSUM) ∧
    MultiBlockPresence.decode (buildFrom ps).checksum = buildFrom ps ∧
    MultiBlockPresence.decode (MultiBlockPresence.none).checksum =
      MultiBlockPresence.none ∧
    MultiBlockPresence.decode (MultiBlockPresence.full).checksum =
      MultiBlockPresence.full := by
  refine ⟨?_, ?_, ?_, ?_⟩
  · intro c hc
    rcases buildFrom_some_shape ps with h | h | ⟨d, h⟩
    · rw [h] at hc; cases hc
    · rw [h] at hc; cases hc
    · rw [h] at hc
      cases hc
      exact clamp_ne_sentinels d
  · exact decode_checksum_of_built _ (buildFrom_some_shape ps)
  · simp [MultiBlockPresence.decode, MultiBlockPresence.checksum]
  · simp only [MultiBlockPresence.decode, MultiBlockPresence.checksum]
    rw [if_neg (by decide)]
    simp

/-- C9 witness: the round trip evaluated at a concrete update sequence (one
`Some`, one `None`: the builder lands in the `Some` state). -/
theorem multi_block_presence_roundtrip_witness :
    MultiBlockPresence.decode
        (buildFrom [.some 5, .none]).checksum = buildFrom [.some 5, .none] ∧
    buildFrom [.some 5, .none] ≠ .some NONE_CHECKSUM := by
  refine ⟨(multi_block_presence_roundtrip [.some 5, .none]).2.1, ?_⟩
  intro h
  exact ((multi_block_presence_roundtrip [.some 5, .none]).1 _ h).1 rfl

/-! ### C10 — `from_inners` never reaches the `unreachable!()` arm -/

theorem NodeState.update_of_ic {s o : NodeState}
    (hs : s = .incomplete ∨ s = .complete)
    (ho : o = .incomplete ∨ o = .complete) :
    ∃ t, s.update o = some t ∧ (t = .incomplete ∨ t = .complete) := by
  rcases hs with h | h <;> rcases ho with h' | h' <;> subst h <;> subst h' <;>
    simp [NodeState.update]

theorem innersFold_ic (nodes : List InnerSummary)
    (h : ∀ n ∈ nodes, n.is_empty = false →
        n.summary.state = .incomplete ∨ n.summary.state = .complete) :
    ∀ (st : NodeState) (b : MultiBlockPresenceBuilder),
      (st = .incomplete ∨ st = .complete) →
      ∃ t, (nodes.foldl innersStep (some st, b)).1 = some t ∧
        (t = .incomplete ∨ t = .complete) := by
  induction nodes with
  | nil => exact fun st b hst => ⟨st, rfl, hst⟩
  | cons n rest ih =>
    intro st b hst
    by_cases he : n.is_empty
    · simp only [List.foldl, innersStep, if_pos he]
      exact ih (fun m hm => h m (List.mem_cons_of_mem n hm)) st b hst
    · have hn := h n (List.mem_cons_self n rest) (Bool.not_eq_true _ ▸ by simpa using he)
      obtain ⟨t, ht, htic⟩ := NodeState.update_of_ic hst hn
      simp only [List.foldl, innersStep, if_neg he, Option.bind, ht]
      exact ih (fun m hm => h m (List.mem_cons_of_mem n hm)) t _ htic

/-- C10: when every non-empty child summary's state is `Incomplete` or
`Complete` — which is all `Summary::from_leaves`/`from_inners` themselves ever
produce — `Summary::from_inners` is total: the `unreachable!()` arm of
`NodeState::update` (modelled as `none`) is never taken, and the resulting
state is again `Incomplete` or `Complete`; `from_leaves` always yields state
`Complete`. -/
theorem from_inners_total (nodes : List InnerSummary)
    (h : ∀ n ∈ nodes, n.is_empty = false →
        n.summary.state = .incomplete ∨ n.summary.state = .complete) :
    (Summary.from_inners nodes).isSome = true ∧
    (∀ s, Summary.from_inners nodes = some s →
        s.state = .incomplete ∨ s.state = .complete) ∧
    (∀ leaves, (Summary.from_leaves leaves).state = .complete) := by
  obtain ⟨t, ht, htic⟩ := innersFold_ic nodes h NodeState.complete
    MultiBlockPresenceBuilder.new (Or.inr rfl)
  refine ⟨?_, ?_, fun leaves => rfl⟩
  · simp [Summary.from_inners, ht]
  · intro s hs
    simp only [Summary.from_inners, ht, Option.map] at hs
    cases hs
    exact htic

/-- C10 witness: `from_inners` evaluated on a concrete child list (one
incomplete child, one complete child, one empty node with an approved summary
that the loop skips). -/
theorem from_inners_total_witness :
    (Summary.from_inners
      [⟨false, ⟨.incomplete, .none⟩⟩, ⟨false, ⟨.complete, .full⟩⟩,
        ⟨true, ⟨.approved, .full⟩⟩]).isSome = true :=
  (from_inners_total _ (by decide)).1

/-! ## `block/tracker.rs` — the missing-block tracker

`BlockId` and `ClientId` are `Nat`. The shared `Inner` state behind the mutex
is modelled explicitly; each source operation becomes a function
`Inner → … × Inner`. Concurrent calls are serialized by the mutex in the
source, so interleavings are modelled as sequences of these functions. The
source's `HashSet`s become lists (iteration order of a `HashSet` is
unspecified; the list order stands in for it). The `notify` side effect is
returned as a `Bool`.
-/

abbrev BlockId := Nat
abbrev ClientId := Nat

/-- `MissingBlock` (tracker.rs). -/
structure MissingBlock : Type where
  clients : List ClientId
  accepted_by : Option ClientId
  being_required : Nat
  required : Nat
deriving DecidableEq, Repr

/-- `Inner` (tracker.rs): `missing_blocks` map plus the `clients` slab
(client id → set of offered block ids, in offer order). -/
structure Inner : Type where
  missing_blocks : List (BlockId × MissingBlock)
  clients : List (ClientId × List BlockId)
deriving DecidableEq, Repr

/-- The fresh `MissingBlock` inserted by `or_insert_with` in `begin_require`
and `offer` (tracker.rs). -/
def MissingBlock.fresh : MissingBlock :=
  { clients := [], accepted_by := none, being_required := 0, required := 0 }

/-- `MissingBlock::unaccept_by` (tracker.rs): clears `accepted_by` iff it is
this client; returns whether it did (the notify condition). -/
def MissingBlock.unaccept_by (mb : MissingBlock) (client_id : ClientId) :
    MissingBlock × Bool :=
  match mb.accepted_by with
  | some c => if c = client_id then ({ mb with accepted_by := none }, true)
              else (mb, false)
  | none => (mb, false)

/-- `BlockTracker::begin_require` (tracker.rs): create the entry if absent and
increment `being_required`. The returned `Require` handle is identified by its
block id. -/
def beginRequire (block_id : BlockId) (s : Inner) : Inner :=
  let mb := (alookup block_id s.missing_blocks).getD MissingBlock.fresh
  let mb' := { mb with being_required := mb.being_required + 1 }
  { s with missing_blocks := ainsert block_id mb' s.missing_blocks }

/-- `Require::commit` (tracker.rs). Returns the state and whether waiters are
notified (the `required == 0` transition). A vacant entry is a no-op. -/
def requireCommit (block_id : BlockId) (s : Inner) : Inner × Bool :=
  match alookup block_id s.missing_blocks with
  | some mb =>
      let mb' := { mb with required := mb.required + 1 }
      ({ s with missing_blocks := ainsert block_id mb' s.missing_blocks },
        mb.required = 0)
  | none => (s, false)

/-- `impl Drop for Require` (tracker.rs): decrement `being_required`; when
both counters hit 0, remove the entry and erase the block from every client
that offered it. -/
def requireDrop (block_id : BlockId) (s : Inner) : Inner :=
  match alookup block_id s.missing_blocks with
  | some mb =>
      let mb' := { mb with being_required := mb.being_required - 1 }
      if mb'.being_required = 0 ∧ mb'.required = 0 then
        { missing_blocks := aerase block_id s.missing_blocks,
          clients := mb.clients.foldl
            (fun cl c => aupdate c (fun ids => ids.filter (· ≠ block_id)) cl)
            s.clients }
      else
        { s with missing_blocks := ainsert block_id mb' s.missing_blocks }
  | none => s

/-- `BlockTrackerClient::offer` (tracker.rs). Returns whether this was a
first-time offer by this client. -/
def offer (client_id : ClientId) (block_id : BlockId) (s : Inner) :
    Inner × Bool :=
  match alookup client_id s.clients with
  | none => (s, false)
  | some ids =>
      if block_id ∈ ids then (s, false)
      else
        let mb := (alookup block_id s.missing_blocks).getD MissingBlock.fresh
        ({ clients := ainsert client_id (ids ++ [block_id]) s.clients,
           missing_blocks :=
             ainsert block_id { mb with clients := mb.clients ++ [client_id] }
               s.missing_blocks },
          true)

/-- `BlockTrackerClient::cancel` (tracker.rs). Returns the state and whether
waiters are notified (`unaccept_by` succeeded). -/
def cancel (client_id : ClientId) (block_id : BlockId) (s : Inner) :
    Inner × Bool :=
  match alookup client_id s.clients with
  | none => (s, false)
  | some ids =>
      if block_id ∈ ids then
        let s₁ : Inner :=
          { s with clients :=
              ainsert client_id (ids.filter (· ≠ block_id)) s.clients }
        match alookup block_id s₁.missing_blocks with
        | some mb =>
            let mb₁ := { mb with clients := mb.clients.filter (· ≠ client_id) }
            let (mb₂, notify) := mb₁.unaccept_by client_id
            ({ s₁ with missing_blocks := ainsert block_id mb₂ s₁.missing_blocks },
              notify)
        | none => (s₁, false)
      else (s, false)

/-- The body of the `for` loop in `BlockTrackerClient::try_accept`
(tracker.rs): scan the client's offered ids, accept the first one that is
required and unaccepted. -/
def tryAcceptLoop (client_id : ClientId) (s : Inner) :
    List BlockId → Option BlockId × Inner
  | [] => (none, s)
  | block_id :: rest =>
      match alookup block_id s.missing_blocks with
      | some mb =>
          if mb.required > 0 ∧ mb.accepted_by = none then
            let mb' := { mb with accepted_by := some client_id }
            (some block_id,
              { s with missing_blocks := ainsert block_id mb' s.missing_blocks })
          else tryAcceptLoop client_id s rest
      | none => tryAcceptLoop client_id s rest

/-- `BlockTrackerClient::try_accept` (tracker.rs). -/
def tryAccept (client_id : ClientId) (s : Inner) : Option BlockId × Inner :=
  match alookup client_id s.clients with
  | some ids => tryAcceptLoop client_id s ids
  | none => (none, s)

/-- `BlockTracker::complete` (tracker.rs): drop the entry and clear the block
from every offering client's set. -/
def complete (block_id : BlockId) (s : Inner) : Inner :=
  match alookup block_id s.missing_blocks with
  | some mb =>
      { missing_blocks := aerase block_id s.missing_blocks,
        clients := mb.clients.foldl
          (fun cl c => aupdate c (fun ids => ids.filter (· ≠ block_id)) cl)
          s.clients }
  | none => s

/-- Run `try_accept` once per client, in sequence (the mutex serializes the
concurrent calls in the source). Returns every call's result and the final
state. -/
def runTryAccepts (s : Inner) : List ClientId → List (Option BlockId) × Inner
  | [] => ([], s)
  | c :: cs =>
      let (r, s') := tryAccept c s
      let (rs, s'') := runTryAccepts s' cs
      (r :: rs, s'')

/-! ### C1 — at most one client holds the accept token -/

theorem tryAccept_wins {s : Inner} {b : BlockId} {c : ClientId}
    {mb : MissingBlock}
    (hcl : alookup c s.clients = some [b])
    (hmb : alookup b s.missing_blocks = some mb)
    (hreq : mb.required > 0) (hacc : mb.accepted_by = none) :
    tryAccept c s =
      (some b,
        { s with missing_blocks :=
            ainsert b { mb with accepted_by := some c } s.missing_blocks }) := by
  simp [tryAccept, tryAcceptLoop, hcl, hmb, hreq, hacc]

theorem tryAccept_blocked {s : Inner} {b : BlockId} {c x : ClientId}
    {mb : MissingBlock}
    (hcl : alookup c s.clients = some [b])
    (hmb : alookup b s.missing_blocks = some mb)
    (hacc : mb.accepted_by = some x) :
    tryAccept c s = (none, s) := by
  simp [tryAccept, tryAcceptLoop, hcl, hmb, hacc]

theorem runTryAccepts_all_blocked {s : Inner} {b : BlockId} {x : ClientId}
    {mb : MissingBlock} (cs : List ClientId)
    (hcl : ∀ c' ∈ cs, alookup c' s.clients = some [b])
    (hmb : alookup b s.missing_blocks = some mb)
    (hacc : mb.accepted_by = some x) :
    runTryAccepts s cs = (List.replicate cs.length none, s) := by
  induction cs with
  | nil => rfl
  | cons c' cs' ih =>
    have h1 := tryAccept_blocked (hcl c' (List.mem_cons_self c' cs')) hmb hacc
    simp only [runTryAccepts, h1]
    rw [ih (fun c hc => hcl c (List.mem_cons_of_mem c' hc))]
    rfl

/-- C1: in any tracker state where block `b` is required and unaccepted and
each of the distinct clients `c :: cs` has offered exactly `b`, running
`try_accept` once per client (in any serialization — here the given order)
returns `Some b` to exactly the first client and `None` to every other;
`accepted_by` is set to the winner. The token is held until released: after
the winner `cancel`s, another client's `try_accept` returns `Some b` again. -/
theorem try_accept_exclusive (s : Inner) (b : BlockId) (c : ClientId)
    (cs : List ClientId) (mb : MissingBlock)
    (hmb : alookup b s.missing_blocks = some mb)
    (hreq : mb.required > 0) (hacc : mb.accepted_by = none)
    (hoff : ∀ c' ∈ c :: cs, alookup c' s.clients = some [b])
    (hnd : c ∉ cs) :
    (runTryAccepts s (c :: cs)).1 = some b :: List.replicate cs.length none ∧
    alookup b (runTryAccepts s (c :: cs)).2.missing_blocks =
      some { mb with accepted_by := some c } ∧
    (∀ c' ∈ cs,
      (tryAccept c' (cancel c b (runTryAccepts s (c :: cs)).2).1).1 = some b) := by
  have hc := hoff c (List.mem_cons_self c cs)
  have hwin := tryAccept_wins hc hmb hreq hacc
  set mbAcc : MissingBlock := { mb with accepted_by := some c } with hmbAcc
  set s' : Inner :=
    { s with missing_blocks := ainsert b mbAcc s.missing_blocks } with hs'
  have hmb' : alookup b s'.missing_blocks = some mbAcc := alookup_ainsert ..
  have hcl' : ∀ c' ∈ cs, alookup c' s'.clients = some [b] :=
    fun c' hc' => hoff c' (List.mem_cons_of_mem c hc')
  have hrest := runTryAccepts_all_blocked cs hcl' hmb' rfl
  have hrun : runTryAccepts s (c :: cs) =
      (some b :: List.replicate cs.length none, s') := by
    simp only [runTryAccepts, hwin, hrest]
  refine ⟨by rw [hrun], by rw [hrun]; exact hmb', ?_⟩
  intro c' hc'
  have hne : c' ≠ c := fun h => hnd (h ▸ hc')
  rw [hrun]
  -- compute the cancel by the winner
  set mbCanc : MissingBlock :=
    { mb with clients := mb.clients.filter (· ≠ c), accepted_by := none }
    with hmbCanc
  have hcanc : (cancel c b s').1 =
      { missing_blocks := ainsert b mbCanc s'.missing_blocks,
        clients := ainsert c [] s.clients } := by
    simp [cancel, hc, hmb', MissingBlock.unaccept_by, hmbAcc, hmbCanc]
  rw [hcanc]
  have hcl'' : alookup c' (ainsert c ([] : List BlockId) s.clients) =
      some [b] := by
    rw [alookup_ainsert_ne _ _ hne]
    exact hcl' c' hc'
  simp only [tryAccept, tryAcceptLoop, hcl'']
  rw [alookup_ainsert]
  simp [hreq]

/-- C1 witness: three clients that all offered block 7, which is required;
client 0 accepts, clients 1 and 2 get `None`, and after client 0 cancels,
client 1 can accept. -/
theorem try_accept_exclusive_witness :
    (runTryAccepts
      { missing_blocks :=
          [(7, { clients := [0, 1, 2], accepted_by := none,
                 being_required := 0, required := 1 })],
        clients := [(0, [7]), (1, [7]), (2, [7])] } [0, 1, 2]).1 =
      [some 7, none, none] := by
  have h := try_accept_exclusive
    { missing_blocks :=
        [(7, { clients := [0, 1, 2], accepted_by := none,
               being_required := 0, required := 1 })],
      clients := [(0, [7]), (1, [7]), (2, [7])] } 7 0 [1, 2]
    { clients := [0, 1, 2], accepted_by := none,
      being_required := 0, required := 1 }
    (by decide) (by decide) rfl (by decide) (by decide)
  exact h.1

/-! ### C3 — the `Require` handle lifecycle -/

theorem alookup_aerase {α : Type} (k : Nat) (l : List (Nat × α)) :
    alookup k (aerase k l) = none := by
  induction l with
  | nil => rfl
  | cons p rest ih =>
    obtain ⟨a, b⟩ := p
    by_cases hp : a = k
    · simpa [aerase, alookup, hp] using ih
    · simpa [aerase, alookup, hp] using ih

theorem filter_ne_idem (b : Nat) (ids : List Nat) :
    (ids.filter (· ≠ b)).filter (· ≠ b) = ids.filter (· ≠ b) := by
  induction ids with
  | nil => rfl
  | cons x rest ih =>
    by_cases hx : x = b
    · simp [List.filter, hx, ih]
    · simp [List.filter, hx, ih]

theorem foldl_aupdate_lookup (b : BlockId) (cs : List ClientId)
    (cl : List (ClientId × List BlockId)) (c : ClientId) :
    alookup c (cs.foldl
      (fun acc c' => aupdate c' (fun ids => ids.filter (· ≠ b)) acc) cl) =
      if c ∈ cs then (alookup c cl).map (fun ids => ids.filter (· ≠ b))
      else alookup c cl := by
  induction cs generalizing cl with
  | nil => simp
  | cons c₀ cs' ih =>
    simp only [List.foldl]
    rw [ih]
    by_cases hc : c = c₀
    · subst hc
      rw [alookup_aupdate]
      by_cases hmem : c ∈ cs'
      · simp only [hmem, if_true, List.mem_cons, true_or, or_true]
        cases alookup c cl with
        | none => simp
        | some ids => simp [filter_ne_idem]
      · simp [hmem]
    · rw [alookup_aupdate_ne _ _ hc]
      by_cases hmem : c ∈ cs'
      · simp [hmem, List.mem_cons]
      · simp [hmem, List.mem_cons, hc]

/-- A concrete tracker state: client 0 has offered block 7, and one `Require`
handle (uncommitted, `being_required = 1`) exists for block 7. -/
def requireDropState : Inner :=
  { missing_blocks :=
      [(7, { clients := [0], accepted_by := none,
             being_required := 1, required := 0 })],
    clients := [(0, [7])] }

/-- C3 counterexample: the claim says an entry with live offers survives the
drop of an uncommitted `Require`. In `requireDropState` client 0 has offered
block 7, yet dropping the handle removes the entry (and erases the offer from
client 0's set): `impl Drop for Require` (tracker.rs) removes the entry
whenever both counters reach 0, regardless of offers. -/
theorem require_drop_removes_offered_entry :
    alookup 7 (requireDrop 7 requireDropState).missing_blocks = none ∧
    alookup 0 (requireDrop 7 requireDropState).clients = some [] := by
  constructor
  · rfl
  · rfl

/-- C3 (amended): `begin_require` creates the missing-block entry if absent
and increments `being_required`; `commit` increments `required` and notifies
exactly when `required` transitions from 0; dropping the `Require` without
commit decrements `being_required`, and when both counters reach 0 the entry
is removed even when clients have offered the block — the block is then also
erased from every offering client's set. When either counter stays positive
the entry survives with `being_required` decremented. -/
theorem require_lifecycle (s : Inner) (b : BlockId) (mb : MissingBlock) :
    (alookup b s.missing_blocks = none →
      alookup b (beginRequire b s).missing_blocks =
        some { clients := [], accepted_by := none,
               being_required := 1, required := 0 }) ∧
    (alookup b s.missing_blocks = some mb →
      alookup b (beginRequire b s).missing_blocks =
        some { mb with being_required := mb.being_required + 1 } ∧
      (beginRequire b s).clients = s.clients) ∧
    (alookup b s.missing_blocks = some mb →
      alookup b (requireCommit b s).1.missing_blocks =
        some { mb with required := mb.required + 1 } ∧
      ((requireCommit b s).2 = true ↔ mb.required = 0)) ∧
    (alookup b s.missing_blocks = some mb →
      mb.being_required - 1 = 0 → mb.required = 0 →
      alookup b (requireDrop b s).missing_blocks = none ∧
      ∀ c, alookup c (requireDrop b s).clients =
        if c ∈ mb.clients then
          (alookup c s.clients).map (fun ids => ids.filter (· ≠ b))
        else alookup c s.clients) ∧
    (alookup b s.missing_blocks = some mb →
      ¬(mb.being_required - 1 = 0 ∧ mb.required = 0) →
      alookup b (requireDrop b s).missing_blocks =
        some { mb with being_required := mb.being_required - 1 } ∧
      (requireDrop b s).clients = s.clients) := by
  refine ⟨?_, ?_, ?_, ?_, ?_⟩
  · intro h
    simp [beginRequire, h, MissingBlock.fresh, alookup_ainsert]
  · intro h
    simp [beginRequire, h, alookup_ainsert]
  · intro h
    simp [requireCommit, h, alookup_ainsert]
  · intro h h1 h2
    have hcond : ((mb.being_required - 1 = 0) ∧ (mb.required = 0)) := ⟨h1, h2⟩
    constructor
    · simp only [requireDrop, h]
      rw [if_pos hcond]
      exact alookup_aerase ..
    · intro c
      simp only [requireDrop, h]
      rw [if_pos hcond]
      exact foldl_aupdate_lookup b mb.clients s.clients c
  · intro h hcond
    simp only [requireDrop, h]
    rw [if_neg hcond]
    exact ⟨alookup_ainsert .., rfl⟩

/-- C3 witness: `begin_require` on an empty tracker creates the entry with
`being_required = 1`; committing it bumps `required` and notifies. -/
theorem require_lifecycle_witness :
    alookup 7 (beginRequire 7
        { missing_blocks := [], clients := [] }).missing_blocks =
      some { clients := [], accepted_by := none,
             being_required := 1, required := 0 } :=
  (require_lifecycle { missing_blocks := [], clients := [] } 7
    MissingBlock.fresh).1 rfl

/-! ## `network/pending.rs` — the pending-request table

Node collections (`InnerNodeMap`/`LeafNodeSet`) enter the table keyed by
their `CacheHash`; they are modelled by that hash value (a `Nat`). Debug
payloads, timestamps, and the semaphore permits do not affect which key maps
to which entry and are elided; the `permit` field of a returned
`PendingResponse` is kept as a `Bool` (`true` ↔ the source's `Some(permit)`),
since claim C8's unsolicited-`RootNode` exception surfaces there.
`ProcessedResponse::from` is shape-preserving, so `to_key` is defined on the
response directly.
-/

/-- `ResponseDisambiguator` (message.rs): distinguishes inner- from leaf-node
requests for the same parent hash. -/
inductive ResponseDisambiguator : Type where
  | innerNodes
  | leafNodes
deriving DecidableEq, Repr

/-- `UntrustedProof` as consumed by pending.rs: only `writer_id` is read. -/
structure UntrustedProof : Type where
  writer_id : Nat
deriving DecidableEq, Repr

/-- `BlockData` as consumed by pending.rs: `data.id` (the content hash). -/
structure BlockData : Type where
  id : BlockId
deriving DecidableEq, Repr

/-- `Key` (pending.rs): the semantic identity of a request. -/
inductive Key : Type where
  | rootNode (writer_id : Nat)
  | childNodes (hash : Nat) (d : ResponseDisambiguator)
  | block (block_id : BlockId)
deriving DecidableEq, Repr

/-- `PendingRequest` (pending.rs). The `Block` variant's `BlockPromise`
carries its block id. -/
inductive PendingRequest : Type where
  | rootNode (writer_id : Nat)
  | childNodes (hash : Nat) (d : ResponseDisambiguator)
  | block (block_id : BlockId)
deriving DecidableEq, Repr

/-- `PendingRequest::to_key` (pending.rs). -/
def PendingRequest.toKey : PendingRequest → Key
  | .rootNode w => .rootNode w
  | .childNodes h d => .childNodes h d
  | .block b => .block b

/-- `Response` (as matched by `From<Response> for ProcessedResponse`,
pending.rs): four success and three failure variants. -/
inductive Response : Type where
  | rootNode (proof : UntrustedProof) (summary : Summary)
  | innerNodes (nodes : Nat) (d : ResponseDisambiguator)
  | leafNodes (nodes : Nat) (d : ResponseDisambiguator)
  | block (data : BlockData)
  | rootNodeError (writer_id : Nat)
  | childNodesError (hash : Nat) (d : ResponseDisambiguator)
  | blockError (block_id : BlockId)
deriving DecidableEq, Repr

/-- `ProcessedResponse::to_key` (pending.rs). -/
def Response.toKey : Response → Key
  | .rootNode proof _ => .rootNode proof.writer_id
  | .innerNodes nodes d => .childNodes nodes d
  | .leafNodes nodes d => .childNodes nodes d
  | .block data => .block data.id
  | .rootNodeError w => .rootNode w
  | .childNodesError h d => .childNodes h d
  | .blockError b => .block b

/-- `RequestData` (pending.rs); timestamp and permit elided (they do not
affect the table's key structure), `block_promise` kept as the promised
block id. -/
structure RequestData : Type where
  block_promise : Option BlockId
deriving DecidableEq, Repr

/-- `PendingResponse` (pending.rs). `permit = true` models the source's
`Some(permit)`. -/
inductive PendingResponse : Type where
  | rootNode (proof : UntrustedProof) (summary : Summary) (permit : Bool)
  | innerNodes (nodes : Nat) (permit : Bool)
  | leafNodes (nodes : Nat) (permit : Bool)
  | block (data : BlockData) (block_promise : Option BlockId) (permit : Bool)
deriving DecidableEq, Repr

/-- Lookup in a `Key`-keyed association list. -/
def klookup {α : Type} (k : Key) : List (Key × α) → Option α
  | [] => none
  | (k', v) :: rest => if k' = k then some v else klookup k rest

/-- Remove every binding of `k` from a `Key`-keyed association list. -/
def kerase {α : Type} (k : Key) (l : List (Key × α)) : List (Key × α) :=
  l.filter (fun p => p.1 ≠ k)

/-- The map held by `PendingRequests` (pending.rs). -/
abbrev PendingMap := List (Key × RequestData)

/-- `PendingRequests::insert` (pending.rs): occupied keys are left untouched
and `false` is returned; vacant keys get a fresh entry. -/
def pendingInsert (m : PendingMap) (r : PendingRequest) : Bool × PendingMap :=
  match klookup r.toKey m with
  | some _ => (false, m)
  | none =>
      let rd : RequestData :=
        { block_promise :=
            match r with
            | .block b => some b
            | _ => none }
      (true, (r.toKey, rd) :: m)

/-- `PendingRequests::remove` (pending.rs): a response with a matching
pending entry removes it (failure responses yield `None` after removing);
without a matching entry only a success `RootNode` response is let through
(unsolicited push), with no permit. -/
def pendingRemove (m : PendingMap) (resp : Response) :
    Option PendingResponse × PendingMap :=
  let key := resp.toKey
  match klookup key m with
  | some rd =>
      let m' := kerase key m
      match resp with
      | .rootNode proof summary => (some (.rootNode proof summary true), m')
      | .innerNodes nodes _ => (some (.innerNodes nodes true), m')
      | .leafNodes nodes _ => (some (.leafNodes nodes true), m')
      | .block data => (some (.block data rd.block_promise true), m')
      | .rootNodeError _ => (none, m')
      | .childNodesError _ _ => (none, m')
      | .blockError _ => (none, m')
  | none =>
      match resp with
      | .rootNode proof summary => (some (.rootNode proof summary false), m)
      | _ => (none, m)

/-! ### C8 — request dedup and the unsolicited-RootNode exception -/

/-- C8: the pending-request table never admits two in-flight requests with
the same semantic key (`insert` on an occupied key returns `false` and leaves
the table unchanged), and a response whose key matches no pending request is
discarded with the table unchanged — except a success `RootNode` response,
which is accepted (permit-less) even unsolicited. -/
theorem pending_requests_dedup_unsolicited (m : PendingMap)
    (r : PendingRequest) (resp : Response) :
    ((klookup r.toKey m).isSome = true → pendingInsert m r = (false, m)) ∧
    (klookup r.toKey m = none → (pendingInsert m r).1 = true ∧
      (klookup r.toKey (pendingInsert m r).2).isSome = true) ∧
    (klookup resp.toKey m = none →
      (∀ proof summary, resp ≠ .rootNode proof summary) →
      pendingRemove m resp = (none, m)) ∧
    (∀ proof summary, resp = .rootNode proof summary →
      klookup resp.toKey m = none →
      pendingRemove m resp = (some (.rootNode proof summary false), m)) := by
  refine ⟨?_, ?_, ?_, ?_⟩
  · intro h
    cases hk : klookup r.toKey m with
    | none => rw [hk] at h; cases h
    | some rd => simp [pendingInsert, hk]
  · intro h
    refine ⟨by simp [pendingInsert, h], ?_⟩
    simp [pendingInsert, h, klookup]
  · intro h hnotroot
    cases resp with
    | rootNode proof summary => exact absurd rfl (hnotroot proof summary)
    | innerNodes nodes d => simp [pendingRemove, h]
    | leafNodes nodes d => simp [pendingRemove, h]
    | block data => simp [pendingRemove, h]
    | rootNodeError w => simp [pendingRemove, h]
    | childNodesError hh d => simp [pendingRemove, h]
    | blockError b => simp [pendingRemove, h]
  · intro proof summary hresp h
    subst hresp
    simp [pendingRemove, h]

/-- C8 witness: on the empty table, inserting a block request succeeds,
re-inserting it is refused, and an unsolicited inner-nodes response is
discarded while an unsolicited root-node response is let through. -/
theorem pending_requests_dedup_unsolicited_witness :
    pendingInsert ((pendingInsert [] (.block 3)).2) (.block 3) =
      (false, (pendingInsert [] (.block 3)).2) ∧
    pendingRemove [] (.innerNodes 5 .innerNodes) = (none, []) ∧
    pendingRemove [] (.rootNode ⟨9⟩ ⟨.complete, .full⟩) =
      (some (.rootNode ⟨9⟩ ⟨.complete, .full⟩ false), []) := by
  refine ⟨?_, ?_, ?_⟩
  · exact (pending_requests_dedup_unsolicited
      ((pendingInsert [] (.block 3)).2) (.block 3)
      (.innerNodes 5 .innerNodes)).1 (by decide)
  · exact (pending_requests_dedup_unsolicited [] (.block 3)
      (.innerNodes 5 .innerNodes)).2.2.1 rfl (by intro p s h; cases h)
  · exact (pending_requests_dedup_unsolicited [] (.block 3)
      (.rootNode ⟨9⟩ ⟨.complete, .full⟩)).2.2.2 ⟨9⟩ ⟨.complete, .full⟩ rfl rfl

/-! ## `src/src/network/client.rs` — `Client::handle_block` (claim C4) -/

/-- Model of the block content hash: `BlockId = hash(ciphertext)`. Any
definite function serves; the claim is about whether `handle_block` compares
it with the advertised id at all. -/
def blockHash (content : List Nat) : Nat :=
  content.foldl Nat.pair 7

/-- The slice of client state `handle_block` writes to: the `blocks` table. -/
structure ClientIndex : Type where
  blocks : List (Nat × List Nat)
deriving DecidableEq, Repr

/-- `Client::handle_block` (src/src/network/client.rs): begins a transaction,
`block::write`s the received content under the advertised id and commits.
There is no hash verification — the function body starts with the comment
`// TODO: how to validate the block?`. The `index::receive_block` leaf-state
update is elided (it does not validate either). -/
def handle_block (s : ClientIndex) (id : BlockId) (content : List Nat) :
    ClientIndex :=
  { blocks := ainsert id content s.blocks }

/-- C4: the cited `handle_block` stores every received block under the
advertised id unconditionally — in particular the concrete mismatched
response `Block { id := 0, content := [1] }`, whose content hash is not 0, is
written rather than rejected. This contradicts the claim (and the spec's
`hash(content) == expected_block_id` check); the source's own TODO comment
marks the missing validation. -/
theorem handle_block_writes_unverified (s : ClientIndex) (id : BlockId)
    (content : List Nat) :
    alookup id (handle_block s id content).blocks = some content ∧
    blockHash [1] ≠ 0 ∧
    alookup 0 (handle_block ⟨[]⟩ 0 [1]).blocks = some [1] := by
  refine ⟨alookup_ainsert .., by decide, rfl⟩

/-! ## `store/mod.rs` — `remove_outdated_snapshots` (claim C2)

The loop walks the branch's approved snapshot chain newest-first via
`load_prev_approved_root_node`; the chain is the input list. Removing a
snapshot from the database makes the following list element the cursor's new
predecessor, which the recursion mirrors. The preliminary
`remove_older_incomplete` pass only drops incomplete snapshots, which are not
part of the approved chain modelled here.
-/

abbrev VersionVector := List (Nat × Nat)

/-- An approved snapshot, as consumed by the pruning loop: its proof's
version vector plus the per-locator block presence that `check_fallback`
queries (locators whose blocks this snapshot has present / references as
missing). -/
structure Snapshot : Type where
  version_vector : VersionVector
  present_blocks : List Nat
  missing_blocks : List Nat
deriving DecidableEq, Repr

/-- Modelled from the spec: `check_fallback` (store/root_node.rs, not under
src/) — an older snapshot can serve as fallback for a newer one iff it has
some block present that the newer one lacks (references but is missing). -/
def check_fallback (old new : Snapshot) : Bool :=
  old.present_blocks.any (fun l => new.missing_blocks.contains l)

/-- The loop of `Store::remove_outdated_snapshots` (store/mod.rs): walk the
approved predecessors of `new`; keep a predecessor with the same version
vector (`new` is a draft) or one that can serve as fallback, making it the
new cursor; otherwise remove it and continue from the same cursor. Returns
the retained snapshots. -/
def pruneSnapshots (new : Snapshot) : List Snapshot → List Snapshot
  | [] => []
  | old :: rest =>
      if old.version_vector = new.version_vector then
        old :: pruneSnapshots old rest
      else if check_fallback old new then
        old :: pruneSnapshots old rest
      else
        pruneSnapshots new rest

/-- C2: a snapshot deleted by `remove_outdated_snapshots` provides no block
that the relevant newer snapshot (the cursor: the latest snapshot or a
retained one) lacks, and its version vector differs from that cursor's — so
an older approved snapshot that still provides such a block is retained as a
fallback, and a draft's predecessor (equal version vectors) is never deleted;
indeed any directly-succeeding older snapshot with equal version vector or
fallback value is retained. -/
theorem prune_preserves_fallbacks (new : Snapshot) (olds : List Snapshot) :
    (∀ old ∈ olds, old ∉ pruneSnapshots new olds →
      ∃ n, (n = new ∨ n ∈ pruneSnapshots new olds) ∧
        old.version_vector ≠ n.version_vector ∧
        check_fallback old n = false) ∧
    (∀ old rest, olds = old :: rest →
      (old.version_vector = new.version_vector ∨ check_fallback old new = true) →
      old ∈ pruneSnapshots new olds) := by
  constructor
  · induction olds generalizing new with
    | nil => intro old h; cases h
    | cons o rest ih =>
      intro old hmem hnotin
      by_cases hvv : o.version_vector = new.version_vector
      · rw [List.mem_cons] at hmem
        have hres : pruneSnapshots new (o :: rest) = o :: pruneSnapshots o rest := by
          simp [pruneSnapshots, hvv]
        rcases hmem with h | h
        · exact absurd (hres ▸ List.mem_cons_self o _) (h ▸ hnotin)
        · have hnotin' : old ∉ pruneSnapshots o rest := by
            intro hc
            exact hnotin (hres ▸ List.mem_cons_of_mem o hc)
          obtain ⟨n, hn, hvn, hfn⟩ := ih o old h hnotin'
          refine ⟨n, ?_, hvn, hfn⟩
          rcases hn with h' | h'
          · exact Or.inr (hres ▸ (h' ▸ List.mem_cons_self o _))
          · exact Or.inr (hres ▸ List.mem_cons_of_mem o h')
      · by_cases hfb : check_fallback o new = true
        · rw [List.mem_cons] at hmem
          have hres : pruneSnapshots new (o :: rest) =
              o :: pruneSnapshots o rest := by
            simp [pruneSnapshots, hvv, hfb]
          rcases hmem with h | h
          · exact absurd (hres ▸ List.mem_cons_self o _) (h ▸ hnotin)
          · have hnotin' : old ∉ pruneSnapshots o rest := by
              intro hc
              exact hnotin (hres ▸ List.mem_cons_of_mem o hc)
            obtain ⟨n, hn, hvn, hfn⟩ := ih o old h hnotin'
            refine ⟨n, ?_, hvn, hfn⟩
            rcases hn with h' | h'
            · exact Or.inr (hres ▸ (h' ▸ List.mem_cons_self o _))
            · exact Or.inr (hres ▸ List.mem_cons_of_mem o h')
        · have hres : pruneSnapshots new (o :: rest) =
              pruneSnapshots new rest := by
            simp [pruneSnapshots, hvv, hfb]
          rw [List.mem_cons] at hmem
          rcases hmem with h | h
          · subst h
            exact ⟨new, Or.inl rfl, hvv, Bool.not_eq_true _ ▸ (by simpa using hfb)⟩
          · obtain ⟨n, hn, hvn, hfn⟩ := ih new old h (hres ▸ hnotin)
            exact ⟨n, by rw [hres]; exact hn, hvn, hfn⟩
  · intro old rest holds hkeep
    subst holds
    rcases hkeep with h | h
    · simp [pruneSnapshots, h]
    · by_cases hvv : old.version_vector = new.version_vector
      · simp [pruneSnapshots, hvv]
      · simp [pruneSnapshots, hvv, h]

/-- Latest snapshot for the C2 witness: references block 10 but is missing
it. -/
def pruneNew : Snapshot :=
  { version_vector := [(0, 3)], present_blocks := [], missing_blocks := [10] }

/-- Older snapshot that still provides block 10: must be retained. -/
def pruneOld1 : Snapshot :=
  { version_vector := [(0, 2)], present_blocks := [10], missing_blocks := [] }

/-- Yet older snapshot providing nothing: gets removed. -/
def pruneOld2 : Snapshot :=
  { version_vector := [(0, 1)], present_blocks := [], missing_blocks := [] }

/-- C2 witness: pruning `[pruneOld1, pruneOld2]` below `pruneNew` keeps the
fallback `pruneOld1` and deletes `pruneOld2`, which provides nothing to any
retained newer snapshot. -/
theorem prune_preserves_fallbacks_witness :
    (∃ n, (n = pruneNew ∨ n ∈ pruneSnapshots pruneNew [pruneOld1, pruneOld2]) ∧
      pruneOld2.version_vector ≠ n.version_vector ∧
      check_fallback pruneOld2 n = false) ∧
    pruneOld1 ∈ pruneSnapshots pruneNew [pruneOld1, pruneOld2] := by
  constructor
  · exact (prune_preserves_fallbacks pruneNew [pruneOld1, pruneOld2]).1
      pruneOld2 (by decide) (by decide)
  · exact (prune_preserves_fallbacks pruneNew [pruneOld1, pruneOld2]).2
      pruneOld1 [pruneOld2] rfl (by decide)

/-! ## The Merkle index — `index/branch_data.rs` and `store/mod.rs`
(claims C5, C6, C7)

Hashes are `Nat`. Content-addressing is modelled by an explicit encoding of a
node collection into a `Nat` (standing in for the cryptographic hash); the
only property the proofs use is that the hash of a collection is strictly
greater than every child hash stored in it, which rules out key collisions
between the layers of one saved path. The sqlite node tables become
association lists `parent hash ↦ children` with last-write-wins inserts (the
real tables are content-addressed, where both conflict policies coincide).
Inner-node summaries are not read by any of these claims and are elided from
the inner-node table entries.
-/

abbrev Hash := Nat

/-- `INNER_LAYER_COUNT` (protocol): 3 inner layers between root and leaves. -/
def INNER_LAYER_COUNT : Nat := 3

/-- `LeafNode` (protocol): locator hash, block id, presence. -/
structure LeafNode : Type where
  locator : Hash
  block_id : BlockId
  block_presence : SingleBlockPresence
deriving DecidableEq, Repr

/-- `LeafNodes`: the leaf set under one parent, keyed by locator. -/
abbrev LeafNodes := List LeafNode

/-- `InnerNodes`: the child map under one parent, bucket `0..=255` ↦ child
hash. -/
abbrev InnerNodes := List (Nat × Hash)

/-- Nat encoding of a list (injective, strictly larger than every element). -/
def encList : List Nat → Nat
  | [] => 0
  | x :: l => Nat.pair x (encList l) + 1

def presenceCode : SingleBlockPresence → Nat
  | .missing => 0
  | .present => 1
  | .expired => 2

def encLeaf (n : LeafNode) : Nat :=
  Nat.pair n.locator (Nat.pair n.block_id (presenceCode n.block_presence))

/-- Model of the hash of an inner-node child map (invariant 2 of the spec:
parent `hash = H(children_map)`). -/
def hashInners (m : InnerNodes) : Hash :=
  Nat.pair 0 (encList (m.map (fun p => Nat.pair p.1 p.2)))

/-- Model of the hash of a leaf-node group. -/
def hashLeaves (ls : LeafNodes) : Hash :=
  Nat.pair 1 (encList (ls.map encLeaf))

/-- Modelled from the spec: `get_bucket(locator, layer)` (`protocol` module,
not under src/) — "choosing the child bucket at each inner layer from
successive bytes of `locator_hash`": byte `layer` of the locator hash. -/
def get_bucket (locator : Hash) (layer : Nat) : Nat :=
  locator / 256 ^ layer % 256

/-- `Proof`: writer id, version vector and root hash (the signature is
validated on receive and carries no information used by these claims). -/
structure Proof : Type where
  writer_id : Nat
  version_vector : VersionVector
  hash : Hash
deriving DecidableEq, Repr

/-- `RootNode` as used by these claims: its proof. -/
structure RootNode : Type where
  proof : Proof
deriving DecidableEq, Repr

/-- Modelled from the spec: `VersionVector::incremented(writer_id)`
(version_vector.rs, not under src/) — "every local write increments
`vv[local_writer_id]` by 1" (missing entries read as 0). -/
def vvIncrement (w : Nat) (v : VersionVector) : VersionVector :=
  match alookup w v with
  | some n => aupdate w (fun _ => n + 1) v
  | none => v ++ [(w, 1)]

/-- The node tables of one repository database: the branch's approved root
nodes (newest first) and the inner/leaf child tables keyed by parent hash. -/
structure IndexStore : Type where
  roots : List RootNode
  inners : List (Hash × InnerNodes)
  leaves : List (Hash × LeafNodes)
deriving DecidableEq, Repr

/-- `load_inner_nodes` (store/mod.rs): the child map under `parent`, empty
when no rows exist. -/
def loadInners (s : IndexStore) (parent : Hash) : InnerNodes :=
  (alookup parent s.inners).getD []

/-- `load_leaf_nodes` (store/mod.rs): the leaf set under `parent`, empty when
no rows exist. -/
def loadLeaves (s : IndexStore) (parent : Hash) : LeafNodes :=
  (alookup parent s.leaves).getD []

/-- `LeafNodes::get` (protocol): the leaf keyed by `locator`. -/
def leafGet (locator : Hash) : LeafNodes → Option LeafNode
  | [] => none
  | n :: rest => if n.locator = locator then some n else leafGet locator rest

/-- The store/index errors these operations surface. -/
inductive StoreError : Type where
  | locatorNotFound
  | entryNotFound
  | branchNotFound
deriving DecidableEq, Repr

/-- `load_latest_approved_root_node` (store/mod.rs): the branch's latest
approved root (the `roots` list is newest-first). -/
def load_latest_approved_root_node (s : IndexStore) (branch_id : Nat) :
    Except StoreError RootNode :=
  match s.roots.find? (fun r => r.proof.writer_id == branch_id) with
  | some r => .ok r
  | none => .error .branchNotFound

/-- The `for layer in 0..INNER_LAYER_COUNT` loop of `find_block_at`
(store/mod.rs): follow the bucket of each layer, failing with
`LocatorNotFound` when a child is absent. -/
def innerDescend (s : IndexStore) (locator : Hash) :
    List Nat → Hash → Except StoreError Hash
  | [], parent => .ok parent
  | layer :: rest, parent =>
      match alookup (get_bucket locator layer) (loadInners s parent) with
      | some child => innerDescend s locator rest child
      | none => .error .locatorNotFound

/-- `ReadTransaction::find_block_at` (store/mod.rs). Runs inside a read
transaction: it performs no writes, which the embedding reflects by not
returning a store. -/
def find_block_at (s : IndexStore) (root : RootNode) (locator : Hash) :
    Except StoreError BlockId :=
  match innerDescend s locator (List.range INNER_LAYER_COUNT)
      root.proof.hash with
  | .error e => .error e
  | .ok parent =>
      match leafGet locator (loadLeaves s parent) with
      | some node => .ok node.block_id
      | none => .error .locatorNotFound

/-- `ReadTransaction::find_block` (store/mod.rs). -/
def find_block (s : IndexStore) (branch_id : Nat) (locator : Hash) :
    Except StoreError BlockId :=
  match load_latest_approved_root_node s branch_id with
  | .ok root => find_block_at s root locator
  | .error e => .error e

/-- Modelled from the spec: `Path` (index/path.rs, not under src/) — the
loaded root-to-leaf slice for one locator: the root hash, one child map per
inner layer, and the leaf group. -/
structure Path : Type where
  locator : Hash
  root_hash : Hash
  inner0 : InnerNodes
  inner1 : InnerNodes
  inner2 : InnerNodes
  leaves : LeafNodes
deriving DecidableEq, Repr

/-- `SnapshotData::load_path` (branch_data.rs): descend bucket by bucket,
stopping early (lower layers left empty) when a child is absent. -/
def load_path (s : IndexStore) (root : RootNode) (locator : Hash) : Path :=
  let i0 := loadInners s root.proof.hash
  match alookup (get_bucket locator 0) i0 with
  | none =>
      { locator, root_hash := root.proof.hash,
        inner0 := i0, inner1 := [], inner2 := [], leaves := [] }
  | some p1 =>
      let i1 := loadInners s p1
      match alookup (get_bucket locator 1) i1 with
      | none =>
          { locator, root_hash := root.proof.hash,
            inner0 := i0, inner1 := i1, inner2 := [], leaves := [] }
      | some p2 =>
          let i2 := loadInners s p2
          match alookup (get_bucket locator 2) i2 with
          | none =>
              { locator, root_hash := root.proof.hash,
                inner0 := i0, inner1 := i1, inner2 := i2, leaves := [] }
          | some p3 =>
              { locator, root_hash := root.proof.hash,
                inner0 := i0, inner1 := i1, inner2 := i2,
                leaves := loadLeaves s p3 }

/-- Bind or clear a bucket: empty nodes are never stored (per the source's
`empty_nodes_are_not_stored` test). -/
def setOrRemove (b : Nat) (child : Option Hash) (m : InnerNodes) : InnerNodes :=
  match child with
  | some h => ainsert b h m
  | none => aerase b m

/-- Modelled from the spec: the hash recomputation of `Path` (index/path.rs,
not under src/) — "rehashes the path up to the root", bottom-up, clearing the
bucket of a vanished (empty) child. -/
def Path.recompute (p : Path) : Path :=
  let i2 := setOrRemove (get_bucket p.locator 2)
    (if p.leaves.isEmpty then none else some (hashLeaves p.leaves)) p.inner2
  let i1 := setOrRemove (get_bucket p.locator 1)
    (if i2.isEmpty then none else some (hashInners i2)) p.inner1
  let i0 := setOrRemove (get_bucket p.locator 0)
    (if i1.isEmpty then none else some (hashInners i1)) p.inner0
  { p with inner0 := i0, inner1 := i1, inner2 := i2,
           root_hash := hashInners i0 }

/-- Modelled from the spec: `Path::has_leaf` — does the leaf for this
locator already hold `block_id` ("Returns false if the leaf already holds
this `block_id`")? -/
def Path.has_leaf (p : Path) (block_id : BlockId) : Bool :=
  match leafGet p.locator p.leaves with
  | some n => n.block_id == block_id
  | none => false

/-- Modelled from the spec: `Path::set_leaf` — update/create the leaf for
this locator, then rehash up to the root. -/
def Path.set_leaf (p : Path) (block_id : BlockId)
    (presence : SingleBlockPresence) : Path :=
  Path.recompute
    { p with leaves :=
        ⟨p.locator, block_id, presence⟩ ::
          p.leaves.filter (fun n => n.locator ≠ p.locator) }

/-- Modelled from the spec: `Path::remove_leaf` — drop the leaf for the
locator (returning its block id) and rehash; `none` when absent. -/
def Path.remove_leaf (p : Path) (locator : Hash) : Option (BlockId × Path) :=
  match leafGet locator p.leaves with
  | some n =>
      some (n.block_id,
        Path.recompute
          { p with leaves := p.leaves.filter (fun m => m.locator ≠ locator) })
  | none => none

/-- Modelled from the spec: `Path::hash_at_layer` — the hash under which
layer `i`'s nodes are stored: the root hash for layer 0, otherwise the bucket
entry of the layer above. -/
def Path.hash_at_layer (p : Path) : Nat → Option Hash
  | 0 => some p.root_hash
  | 1 => alookup (get_bucket p.locator 0) p.inner0
  | 2 => alookup (get_bucket p.locator 1) p.inner1
  | 3 => alookup (get_bucket p.locator 2) p.inner2
  | _ => none

/-- One iteration of the save loop in `SnapshotData::save_path`
(branch_data.rs): a layer is written under its parent hash when that parent
bucket exists. -/
def saveLayer (tbl : List (Hash × InnerNodes)) (parent : Option Hash)
    (nodes : InnerNodes) : List (Hash × InnerNodes) :=
  match parent with
  | some h => ainsert h nodes tbl
  | none => tbl

/-- `SnapshotData::save_path` + `create_root_node` (branch_data.rs): write
every layer under its parent hash, then create a `RootNode` whose proof keeps
the writer, bumps the version vector at the writer's id and takes the
recomputed root hash; `remove_all_older` drops every other (strictly older)
snapshot of the branch. -/
def save_path (s : IndexStore) (snap : RootNode) (p : Path) :
    IndexStore × RootNode :=
  let t1 := saveLayer s.inners (p.hash_at_layer 0) p.inner0
  let t2 := saveLayer t1 (p.hash_at_layer 1) p.inner1
  let t3 := saveLayer t2 (p.hash_at_layer 2) p.inner2
  let lt :=
    match p.hash_at_layer 3 with
    | some parent => ainsert parent p.leaves s.leaves
    | none => s.leaves
  let writer := snap.proof.writer_id
  let new_root : RootNode :=
    ⟨⟨writer, vvIncrement writer snap.proof.version_vector, p.root_hash⟩⟩
  ({ roots :=
        new_root :: s.roots.filter (fun r => r.proof.writer_id ≠ writer),
     inners := t3, leaves := lt },
    new_root)

/-- `SnapshotData::insert_block` (branch_data.rs). -/
def insert_block (s : IndexStore) (snap : RootNode) (locator : Hash)
    (block_id : BlockId) (presence : SingleBlockPresence) :
    Bool × IndexStore × RootNode :=
  let path := load_path s snap locator
  if path.has_leaf block_id then (false, s, snap)
  else
    let r := save_path s snap (path.set_leaf block_id presence)
    (true, r.1, r.2)

/-- `SnapshotData::remove_block` (branch_data.rs): fails with
`EntryNotFound` when the locator has no leaf; skips the save (an `Ok` no-op)
when `expected_block_id` is given and mismatches. -/
def remove_block (s : IndexStore) (snap : RootNode) (locator : Hash)
    (expected_block_id : Option BlockId) :
    Except StoreError (IndexStore × RootNode) :=
  let path := load_path s snap locator
  match path.remove_leaf locator with
  | none => .error .entryNotFound
  | some (block_id, path') =>
      match expected_block_id with
      | some e =>
          if block_id ≠ e then .ok (s, snap)
          else .ok (save_path s snap path')
      | none => .ok (save_path s snap path')

/-! ### Supporting lemmas for the saved-path reasoning -/

theorem alookup_mem {α : Type} {k : Nat} {v : α} :
    ∀ {l : List (Nat × α)}, alookup k l = some v → (k, v) ∈ l := by
  intro l
  induction l with
  | nil => intro h; cases h
  | cons p rest ih =>
    obtain ⟨a, b⟩ := p
    intro h
    by_cases hp : a = k
    · subst hp
      simp [alookup] at h
      subst h
      exact List.mem_cons_self _ _
    · simp [alookup, hp] at h
      exact List.mem_cons_of_mem _ (ih h)

theorem encList_lt_of_mem {x : Nat} :
    ∀ {L : List Nat}, x ∈ L → x < encList L := by
  intro L
  induction L with
  | nil => intro h; cases h
  | cons y rest ih =>
    intro h
    rw [List.mem_cons] at h
    rcases h with h | h
    · subst h
      calc x ≤ Nat.pair x (encList rest) := Nat.left_le_pair ..
        _ < encList (x :: rest) := Nat.lt_succ_self _
    · calc x < encList rest := ih h
        _ ≤ Nat.pair y (encList rest) := Nat.right_le_pair ..
        _ < encList (y :: rest) := Nat.lt_succ_self _

theorem hashInners_lookup_lt {b h : Nat} {m : InnerNodes}
    (hl : alookup b m = some h) : h < hashInners m := by
  have hmem : (b, h) ∈ m := alookup_mem hl
  have hmem' : Nat.pair b h ∈ m.map (fun p => Nat.pair p.1 p.2) :=
    List.mem_map_of_mem _ hmem
  calc h ≤ Nat.pair b h := Nat.right_le_pair ..
    _ < encList (m.map (fun p => Nat.pair p.1 p.2)) := encList_lt_of_mem hmem'
    _ ≤ hashInners m := Nat.right_le_pair ..

theorem leafGet_filter_self (l : Hash) (ls : LeafNodes) :
    leafGet l (ls.filter (fun m => m.locator ≠ l)) = none := by
  induction ls with
  | nil => rfl
  | cons n rest ih =>
    by_cases hn : n.locator = l
    · simpa [List.filter, hn] using ih
    · simpa [List.filter, hn, leafGet] using ih

theorem leafGet_ne_nil {l : Hash} {ls : LeafNodes} {n : LeafNode}
    (h : leafGet l ls = some n) : ls.isEmpty = false := by
  cases ls with
  | nil => cases h
  | cons a rest => rfl

theorem alookup_setOrRemove (b : Nat) (child : Option Hash) (m : InnerNodes) :
    alookup b (setOrRemove b child m) = child := by
  cases child with
  | some h => exact alookup_ainsert ..
  | none => exact alookup_aerase ..

theorem alookup_ne_nil {b : Nat} {h : Hash} {m : InnerNodes}
    (hl : alookup b m = some h) : m.isEmpty = false := by
  cases m with
  | nil => cases hl
  | cons a rest => rfl

/-- The shape `Path.recompute` guarantees: each bucket along the locator's
path holds exactly the hash of the layer below (or is cleared when that layer
is empty), and the root hash is the hash of the top layer. -/
structure PathWF (q : Path) : Prop where
  h2 : alookup (get_bucket q.locator 2) q.inner2 =
    (if q.leaves.isEmpty then none else some (hashLeaves q.leaves))
  h1 : alookup (get_bucket q.locator 1) q.inner1 =
    (if q.inner2.isEmpty then none else some (hashInners q.inner2))
  h0 : alookup (get_bucket q.locator 0) q.inner0 =
    (if q.inner1.isEmpty then none else some (hashInners q.inner1))
  hroot : q.root_hash = hashInners q.inner0

theorem recompute_wf (p : Path) : PathWF p.recompute := by
  refine ⟨?_, ?_, ?_, ?_⟩
  · exact alookup_setOrRemove ..
  · exact alookup_setOrRemove ..
  · exact alookup_setOrRemove ..
  · rfl

theorem recompute_locator (p : Path) : p.recompute.locator = p.locator := rfl

theorem recompute_leaves (p : Path) : p.recompute.leaves = p.leaves := rfl

/-- Reading back a fully-saved path: when every bucket along the locator's
path is bound (all four layers saved), `find_block_at` on the new root finds
exactly the saved leaf group, and `load_path` reloads its leaves. -/
theorem save_path_find_full (s : IndexStore) (snap : RootNode) (q : Path)
    (hroot : q.root_hash = hashInners q.inner0)
    (h0 : alookup (get_bucket q.locator 0) q.inner0 =
      some (hashInners q.inner1))
    (h1 : alookup (get_bucket q.locator 1) q.inner1 =
      some (hashInners q.inner2))
    (h2 : alookup (get_bucket q.locator 2) q.inner2 =
      some (hashLeaves q.leaves)) :
    find_block_at (save_path s snap q).1 (save_path s snap q).2 q.locator =
      (match leafGet q.locator q.leaves with
        | some n => Except.ok n.block_id
        | none => Except.error StoreError.locatorNotFound) ∧
    (load_path (save_path s snap q).1 (save_path s snap q).2 q.locator).leaves
      = q.leaves := by
  have hK1 : hashInners q.inner1 < q.root_hash := by
    rw [hroot]; exact hashInners_lookup_lt h0
  have hK2 : hashInners q.inner2 < hashInners q.inner1 := hashInners_lookup_lt h1
  have hne01 : q.root_hash ≠ hashInners q.inner1 := ne_of_gt hK1
  have hne02 : q.root_hash ≠ hashInners q.inner2 := ne_of_gt (hK2.trans hK1)
  have hne12 : hashInners q.inner1 ≠ hashInners q.inner2 := ne_of_gt hK2
  have hst : save_path s snap q =
      ({ roots :=
            RootNode.mk ⟨snap.proof.writer_id,
                vvIncrement snap.proof.writer_id snap.proof.version_vector,
                q.root_hash⟩ ::
              s.roots.filter
                (fun r => r.proof.writer_id ≠ snap.proof.writer_id),
          inners := ainsert (hashInners q.inner2) q.inner2
            (ainsert (hashInners q.inner1) q.inner1
              (ainsert q.root_hash q.inner0 s.inners)),
          leaves := ainsert (hashLeaves q.leaves) q.leaves s.leaves },
        RootNode.mk ⟨snap.proof.writer_id,
          vvIncrement snap.proof.writer_id snap.proof.version_vector,
          q.root_hash⟩) := by
    simp only [save_path, saveLayer, Path.hash_at_layer, h0, h1, h2]
  rw [hst]
  have L0 : alookup q.root_hash
      (ainsert (hashInners q.inner2) q.inner2
        (ainsert (hashInners q.inner1) q.inner1
          (ainsert q.root_hash q.inner0 s.inners))) = some q.inner0 := by
    rw [alookup_ainsert_ne _ _ hne02, alookup_ainsert_ne _ _ hne01,
      alookup_ainsert]
  have L1 : alookup (hashInners q.inner1)
      (ainsert (hashInners q.inner2) q.inner2
        (ainsert (hashInners q.inner1) q.inner1
          (ainsert q.root_hash q.inner0 s.inners))) = some q.inner1 := by
    rw [alookup_ainsert_ne _ _ hne12, alookup_ainsert]
  have L2 : alookup (hashInners q.inner2)
      (ainsert (hashInners q.inner2) q.inner2
        (ainsert (hashInners q.inner1) q.inner1
          (ainsert q.root_hash q.inner0 s.inners))) = some q.inner2 :=
    alookup_ainsert ..
  have hrange : List.range INNER_LAYER_COUNT = [0, 1, 2] := rfl
  constructor
  · simp only [find_block_at, hrange, innerDescend, loadInners, loadLeaves,
      L0, L1, L2, h0, h1, h2, Option.getD, alookup_ainsert]
  · simp only [load_path, loadInners, loadLeaves, L0, L1, L2, h0, h1, h2,
      Option.getD, alookup_ainsert]

/-- Reading back a saved path whose leaf group vanished (bucket cleared at
layer 2): the descent fails at the last inner layer. -/
theorem save_path_find_stop2 (s : IndexStore) (snap : RootNode) (q : Path)
    (hroot : q.root_hash = hashInners q.inner0)
    (h0 : alookup (get_bucket q.locator 0) q.inner0 =
      some (hashInners q.inner1))
    (h1 : alookup (get_bucket q.locator 1) q.inner1 =
      some (hashInners q.inner2))
    (h2 : alookup (get_bucket q.locator 2) q.inner2 = none) :
    find_block_at (save_path s snap q).1 (save_path s snap q).2 q.locator =
      Except.error StoreError.locatorNotFound ∧
    (load_path (save_path s snap q).1 (save_path s snap q).2 q.locator).leaves
      = [] := by
  have hK1 : hashInners q.inner1 < q.root_hash := by
    rw [hroot]; exact hashInners_lookup_lt h0
  have hK2 : hashInners q.inner2 < hashInners q.inner1 := hashInners_lookup_lt h1
  have hne01 : q.root_hash ≠ hashInners q.inner1 := ne_of_gt hK1
  have hne02 : q.root_hash ≠ hashInners q.inner2 := ne_of_gt (hK2.trans hK1)
  have hne12 : hashInners q.inner1 ≠ hashInners q.inner2 := ne_of_gt hK2
  have hst : save_path s snap q =
      ({ roots :=
            RootNode.mk ⟨snap.proof.writer_id,
                vvIncrement snap.proof.writer_id snap.proof.version_vector,
                q.root_hash⟩ ::
              s.roots.filter
                (fun r => r.proof.writer_id ≠ snap.proof.writer_id),
          inners := ainsert (hashInners q.inner2) q.inner2
            (ainsert (hashInners q.inner1) q.inner1
              (ainsert q.root_hash q.inner0 s.inners)),
          leaves := s.leaves },
        RootNode.mk ⟨snap.proof.writer_id,
          vvIncrement snap.proof.writer_id snap.proof.version_vector,
          q.root_hash⟩) := by
    simp only [save_path, saveLayer, Path.hash_at_layer, h0, h1, h2]
  rw [hst]
  have L0 : alookup q.root_hash
      (ainsert (hashInners q.inner2) q.inner2
        (ainsert (hashInners q.inner1) q.inner1
          (ainsert q.root_hash q.inner0 s.inners))) = some q.inner0 := by
    rw [alookup_ainsert_ne _ _ hne02, alookup_ainsert_ne _ _ hne01,
      alookup_ainsert]
  have L1 : alookup (hashInners q.inner1)
      (ainsert (hashInners q.inner2) q.inner2
        (ainsert (hashInners q.inner1) q.inner1
          (ainsert q.root_hash q.inner0 s.inners))) = some q.inner1 := by
    rw [alookup_ainsert_ne _ _ hne12, alookup_ainsert]
  have L2 : alookup (hashInners q.inner2)
      (ainsert (hashInners q.inner2) q.inner2
        (ainsert (hashInners q.inner1) q.inner1
          (ainsert q.root_hash q.inner0 s.inners))) = some q.inner2 :=
    alookup_ainsert ..
  have hrange : List.range INNER_LAYER_COUNT = [0, 1, 2] := rfl
  constructor
  · simp only [find_block_at, hrange, innerDescend, loadInners, L0, L1, L2,
      h0, h1, h2, Option.getD]
  · simp only [load_path, loadInners, L0, L1, L2, h0, h1, h2, Option.getD]

/-- Reading back a saved path whose chain stops at layer 1 (inner layer 2
empty): the descent fails at the middle inner layer. -/
theorem save_path_find_stop1 (s : IndexStore) (snap : RootNode) (q : Path)
    (hroot : q.root_hash = hashInners q.inner0)
    (h0 : alookup (get_bucket q.locator 0) q.inner0 =
      some (hashInners q.inner1))
    (h1 : alookup (get_bucket q.locator 1) q.inner1 = none)
    (h2 : alookup (get_bucket q.locator 2) q.inner2 = none) :
    find_block_at (save_path s snap q).1 (save_path s snap q).2 q.locator =
      Except.error StoreError.locatorNotFound ∧
    (load_path (save_path s snap q).1 (save_path s snap q).2 q.locator).leaves
      = [] := by
  have hK1 : hashInners q.inner1 < q.root_hash := by
    rw [hroot]; exact hashInners_lookup_lt h0
  have hne01 : q.root_hash ≠ hashInners q.inner1 := ne_of_gt hK1
  have hst : save_path s snap q =
      ({ roots :=
            RootNode.mk ⟨snap.proof.writer_id,
                vvIncrement snap.proof.writer_id snap.proof.version_vector,
                q.root_hash⟩ ::
              s.roots.filter
                (fun r => r.proof.writer_id ≠ snap.proof.writer_id),
          inners := ainsert (hashInners q.inner1) q.inner1
            (ainsert q.root_hash q.inner0 s.inners),
          leaves := s.leaves },
        RootNode.mk ⟨snap.proof.writer_id,
          vvIncrement snap.proof.writer_id snap.proof.version_vector,
          q.root_hash⟩) := by
    simp only [save_path, saveLayer, Path.hash_at_layer, h0, h1, h2]
  rw [hst]
  have L0 : alookup q.root_hash
      (ainsert (hashInners q.inner1) q.inner1
        (ainsert q.root_hash q.inner0 s.inners)) = some q.inner0 := by
    rw [alookup_ainsert_ne _ _ hne01, alookup_ainsert]
  have L1 : alookup (hashInners q.inner1)
      (ainsert (hashInners q.inner1) q.inner1
        (ainsert q.root_hash q.inner0 s.inners)) = some q.inner1 :=
    alookup_ainsert ..
  have hrange : List.range INNER_LAYER_COUNT = [0, 1, 2] := rfl
  constructor
  · simp only [find_block_at, hrange, innerDescend, loadInners, L0, L1,
      h0, h1, Option.getD]
  · simp only [load_path, loadInners, L0, L1, h0, h1, Option.getD]

/-- Reading back a saved path whose chain stops at layer 0 (inner layer 1
empty): the descent fails at the first inner layer. -/
theorem save_path_find_stop0 (s : IndexStore) (snap : RootNode) (q : Path)
    (_hroot : q.root_hash = hashInners q.inner0)
    (h0 : alookup (get_bucket q.locator 0) q.inner0 = none)
    (h1 : alookup (get_bucket q.locator 1) q.inner1 = none)
    (h2 : alookup (get_bucket q.locator 2) q.inner2 = none) :
    find_block_at (save_path s snap q).1 (save_path s snap q).2 q.locator =
      Except.error StoreError.locatorNotFound ∧
    (load_path (save_path s snap q).1 (save_path s snap q).2 q.locator).leaves
      = [] := by
  have hst : save_path s snap q =
      ({ roots :=
            RootNode.mk ⟨snap.proof.writer_id,
                vvIncrement snap.proof.writer_id snap.proof.version_vector,
                q.root_hash⟩ ::
              s.roots.filter
                (fun r => r.proof.writer_id ≠ snap.proof.writer_id),
          inners := ainsert q.root_hash q.inner0 s.inners,
          leaves := s.leaves },
        RootNode.mk ⟨snap.proof.writer_id,
          vvIncrement snap.proof.writer_id snap.proof.version_vector,
          q.root_hash⟩) := by
    simp only [save_path, saveLayer, Path.hash_at_layer, h0, h1, h2]
  rw [hst]
  have L0 : alookup q.root_hash (ainsert q.root_hash q.inner0 s.inners) =
      some q.inner0 := alookup_ainsert ..
  have hrange : List.range INNER_LAYER_COUNT = [0, 1, 2] := rfl
  constructor
  · simp only [find_block_at, hrange, innerDescend, loadInners, L0, h0,
      Option.getD]
  · simp only [load_path, loadInners, L0, h0, Option.getD]

/-- Reading back any saved recomputed path: `find_block_at` on the new root
resolves the locator exactly against the saved leaf group, and `load_path`
reloads those leaves. -/
theorem save_path_find (s : IndexStore) (snap : RootNode) (q : Path)
    (hwf : PathWF q) :
    find_block_at (save_path s snap q).1 (save_path s snap q).2 q.locator =
      (match leafGet q.locator q.leaves with
        | some n => Except.ok n.block_id
        | none => Except.error StoreError.locatorNotFound) ∧
    (load_path (save_path s snap q).1 (save_path s snap q).2 q.locator).leaves
      = q.leaves := by
  obtain ⟨h2, h1, h0, hroot⟩ := hwf
  cases hL : q.leaves.isEmpty with
  | false =>
    simp only [hL, Bool.false_eq_true, if_false] at h2
    have hI2 : q.inner2.isEmpty = false := by
      cases hi : q.inner2 with
      | nil => rw [hi] at h2; cases h2
      | cons a r => rfl
    simp only [hI2, Bool.false_eq_true, if_false] at h1
    have hI1 : q.inner1.isEmpty = false := by
      cases hi : q.inner1 with
      | nil => rw [hi] at h1; cases h1
      | cons a r => rfl
    simp only [hI1, Bool.false_eq_true, if_false] at h0
    exact save_path_find_full s snap q hroot h0 h1 h2
  | true =>
    have hleaves : q.leaves = [] := by
      cases hi : q.leaves with
      | nil => rfl
      | cons a r => rw [hi] at hL; cases hL
    simp only [hL, if_true] at h2
    cases hI2 : q.inner2.isEmpty with
    | false =>
      simp only [hI2, Bool.false_eq_true, if_false] at h1
      have hI1 : q.inner1.isEmpty = false := by
        cases hi : q.inner1 with
        | nil => rw [hi] at h1; cases h1
        | cons a r => rfl
      simp only [hI1, Bool.false_eq_true, if_false] at h0
      have h := save_path_find_stop2 s snap q hroot h0 h1 h2
      rw [hleaves]
      exact ⟨h.1, h.2⟩
    | true =>
      simp only [hI2, if_true] at h1
      cases hI1 : q.inner1.isEmpty with
      | false =>
        simp only [hI1, Bool.false_eq_true, if_false] at h0
        have h := save_path_find_stop1 s snap q hroot h0 h1 h2
        rw [hleaves]
        exact ⟨h.1, h.2⟩
      | true =>
        simp only [hI1, if_true] at h0
        have h := save_path_find_stop0 s snap q hroot h0 h1 h2
        rw [hleaves]
        exact ⟨h.1, h.2⟩

theorem load_path_locator (s : IndexStore) (root : RootNode) (locator : Hash) :
    (load_path s root locator).locator = locator := by
  simp only [load_path]
  split
  · rfl
  · split
    · rfl
    · split
      · rfl
      · rfl

/-! ### C7 — `find_block` descends by locator-hash bytes -/

/-- The spec's description of the lookup, written from its words: descend
from the given root; at each of the `INNER_LAYER_COUNT` inner layers choose
the child bucket given by the corresponding byte of the locator hash (byte
`i` of the `Nat`-modelled hash is its `i`-th base-256 digit); finally look up
the leaf keyed by the locator hash. Missing any intermediate inner node or
the leaf yields the `LocatorNotFound` error. -/
def find_block_spec (s : IndexStore) (root : RootNode) (locator : Hash) :
    Except StoreError BlockId :=
  match alookup (locator / 256 ^ 0 % 256) (loadInners s root.proof.hash) with
  | none => .error .locatorNotFound
  | some p1 =>
      match alookup (locator / 256 ^ 1 % 256) (loadInners s p1) with
      | none => .error .locatorNotFound
      | some p2 =>
          match alookup (locator / 256 ^ 2 % 256) (loadInners s p2) with
          | none => .error .locatorNotFound
          | some p3 =>
              match leafGet locator (loadLeaves s p3) with
              | some n => .ok n.block_id
              | none => .error .locatorNotFound

theorem find_block_at_eq_spec (s : IndexStore) (root : RootNode)
    (locator : Hash) :
    find_block_at s root locator = find_block_spec s root locator := by
  have hrange : List.range INNER_LAYER_COUNT = [0, 1, 2] := rfl
  simp only [find_block_at, hrange, innerDescend, find_block_spec, get_bucket]
  cases alookup (locator / 256 ^ 0 % 256) (loadInners s root.proof.hash) with
  | none => rfl
  | some p1 =>
      dsimp only
      cases alookup (locator / 256 ^ 1 % 256) (loadInners s p1) with
      | none => rfl
      | some p2 =>
          dsimp only
          cases alookup (locator / 256 ^ 2 % 256) (loadInners s p2) with
          | none => rfl
          | some p3 => rfl

/-- C7: `find_block` loads the branch's latest approved root node and
descends from it, selecting at each of the `INNER_LAYER_COUNT` inner layers
the child bucket given by the corresponding byte of the locator hash, and
returns the `block_id` of the leaf keyed by the locator hash; an absent
intermediate inner node or leaf yields the `LocatorNotFound` error
(`find_block_spec` spells this out from the spec's words). The operation
runs in a read transaction — in the embedding it is a pure function of the
store and returns no modified state. -/
theorem find_block_matches_spec (s : IndexStore) (branch_id : Nat)
    (locator : Hash) :
    find_block s branch_id locator =
      (match load_latest_approved_root_node s branch_id with
        | .ok root => find_block_spec s root locator
        | .error e => .error e) := by
  simp only [find_block]
  cases load_latest_approved_root_node s branch_id with
  | ok root => exact find_block_at_eq_spec s root locator
  | error e => rfl

/-! ### C6 — `insert_block` -/

/-- C6: `insert_block` returns `false` and leaves everything unchanged when
the leaf for the encoded locator already holds the block id; otherwise it
updates the leaf and rehashes up to the root (witnessed by `find_block` now
resolving the locator to the block through the new root), creates a root
node for the same writer whose version vector is the previous one
incremented at the branch's own writer id, removes all strictly older
snapshots of that branch (every remaining root of this writer is the new
one), and returns `true`. -/
theorem insert_block_correct (s : IndexStore) (snap : RootNode)
    (locator : Hash) (block_id : BlockId) (presence : SingleBlockPresence) :
    ((load_path s snap locator).has_leaf block_id = true →
      insert_block s snap locator block_id presence = (false, s, snap)) ∧
    ((load_path s snap locator).has_leaf block_id = false →
      (insert_block s snap locator block_id presence).1 = true ∧
      (insert_block s snap locator block_id presence).2.2.proof.writer_id =
        snap.proof.writer_id ∧
      (insert_block s snap locator block_id presence).2.2.proof.version_vector
        = vvIncrement snap.proof.writer_id snap.proof.version_vector ∧
      (insert_block s snap locator block_id presence).2.1.roots =
        (insert_block s snap locator block_id presence).2.2 ::
          s.roots.filter
            (fun r => r.proof.writer_id ≠ snap.proof.writer_id) ∧
      find_block (insert_block s snap locator block_id presence).2.1
        snap.proof.writer_id locator = .ok block_id) := by
  constructor
  · intro h
    simp [insert_block, h]
  · intro h
    have hins : insert_block s snap locator block_id presence =
        (true,
          save_path s snap
            ((load_path s snap locator).set_leaf block_id presence)) := by
      simp [insert_block, h]
    set q : Path := (load_path s snap locator).set_leaf block_id presence
      with hq
    have hwf : PathWF q := recompute_wf _
    have hql : q.locator = locator := load_path_locator s snap locator
    have hfind := (save_path_find s snap q hwf).1
    rw [hql] at hfind
    have hleafq : leafGet locator q.leaves =
        some ⟨(load_path s snap locator).locator, block_id, presence⟩ := by
      show leafGet locator
        (⟨(load_path s snap locator).locator, block_id, presence⟩ ::
          (load_path s snap locator).leaves.filter
            (fun n => n.locator ≠ (load_path s snap locator).locator)) = _
      simp [leafGet, load_path_locator s snap locator]
    rw [hleafq] at hfind
    refine ⟨by rw [hins], by rw [hins]; rfl, by rw [hins]; rfl,
      by rw [hins]; rfl, ?_⟩
    rw [hins]
    show find_block (save_path s snap q).1 snap.proof.writer_id locator = _
    have hroots : (save_path s snap q).1.roots =
        (save_path s snap q).2 ::
          s.roots.filter (fun r => r.proof.writer_id ≠ snap.proof.writer_id) :=
      rfl
    have hwr : (save_path s snap q).2.proof.writer_id = snap.proof.writer_id :=
      rfl
    simp only [find_block, load_latest_approved_root_node, hroots,
      List.find?, hwr, beq_self_eq_true]
    exact hfind

/-- C6 witness: inserting block 3 at locator 5 into an empty branch (no leaf
present) succeeds and `find_block` resolves locator 5 to block 3. -/
theorem insert_block_correct_witness :
    find_block
        (insert_block
          { roots := [⟨⟨0, [], hashInners []⟩⟩],
            inners := [], leaves := [] }
          ⟨⟨0, [], hashInners []⟩⟩ 5 3 .present).2.1
        0 5 = .ok 3 :=
  ((insert_block_correct
      { roots := [⟨⟨0, [], hashInners []⟩⟩], inners := [], leaves := [] }
      ⟨⟨0, [], hashInners []⟩⟩ 5 3 .present).2 rfl).2.2.2.2

/-! ### C5 — insert, remove, remove again -/

/-- Removing a locator that has a leaf: the remove succeeds, the locator no
longer resolves through the new root, and a second remove fails with
`EntryNotFound` (no write happens — the function errors before saving). -/
theorem remove_then_gone (s : IndexStore) (snap : RootNode) (locator : Hash)
    (hleaf : (leafGet locator (load_path s snap locator).leaves).isSome
      = true) :
    ∃ t : IndexStore × RootNode,
      remove_block s snap locator none = .ok t ∧
      find_block t.1 snap.proof.writer_id locator =
        .error .locatorNotFound ∧
      remove_block t.1 t.2 locator none = .error .entryNotFound := by
  obtain ⟨n, hn⟩ : ∃ n,
      leafGet locator (load_path s snap locator).leaves = some n := by
    cases h : leafGet locator (load_path s snap locator).leaves with
    | none => rw [h] at hleaf; cases hleaf
    | some n => exact ⟨n, rfl⟩
  set q : Path := Path.recompute
    { load_path s snap locator with
      leaves := (load_path s snap locator).leaves.filter
        (fun m => m.locator ≠ locator) } with hqdef
  have hrm : remove_block s snap locator none = .ok (save_path s snap q) := by
    simp only [remove_block, Path.remove_leaf, hn]
  have hwf : PathWF q := recompute_wf _
  have hql : q.locator = locator := load_path_locator s snap locator
  have hqleaves : q.leaves = (load_path s snap locator).leaves.filter
      (fun m => m.locator ≠ locator) := rfl
  have hfind := (save_path_find s snap q hwf).1
  have hload := (save_path_find s snap q hwf).2
  rw [hql] at hfind hload
  simp only [hqleaves, leafGet_filter_self] at hfind
  refine ⟨save_path s snap q, hrm, ?_, ?_⟩
  · have hroots : (save_path s snap q).1.roots =
        (save_path s snap q).2 ::
          s.roots.filter
            (fun r => r.proof.writer_id ≠ snap.proof.writer_id) := rfl
    have hwr : (save_path s snap q).2.proof.writer_id =
        snap.proof.writer_id := rfl
    simp only [find_block, load_latest_approved_root_node, hroots,
      List.find?, hwr, beq_self_eq_true]
    exact hfind
  · simp only [remove_block, Path.remove_leaf, hload, hqleaves,
      leafGet_filter_self]

/-- C5 (amended): after `insert_block` at a locator followed by
`remove_block` of that locator, `find_block` for the locator returns the
`LocatorNotFound` error; calling `remove_block` again for the now-absent
locator performs no write (it returns before saving) but is not a silent
no-op: it fails with the `EntryNotFound` error. -/
theorem insert_remove_not_found (s : IndexStore) (snap : RootNode)
    (locator : Hash) (block_id : BlockId) (presence : SingleBlockPresence) :
    ∃ t : IndexStore × RootNode,
      remove_block (insert_block s snap locator block_id presence).2.1
        (insert_block s snap locator block_id presence).2.2 locator none =
        .ok t ∧
      find_block t.1 snap.proof.writer_id locator =
        .error .locatorNotFound ∧
      remove_block t.1 t.2 locator none = .error .entryNotFound := by
  cases hlf : (load_path s snap locator).has_leaf block_id with
  | true =>
    have hins : insert_block s snap locator block_id presence =
        (false, s, snap) := by
      simp [insert_block, hlf]
    rw [hins]
    apply remove_then_gone
    unfold Path.has_leaf at hlf
    rw [load_path_locator s snap locator] at hlf
    cases hg : leafGet locator (load_path s snap locator).leaves with
    | none => rw [hg] at hlf; cases hlf
    | some n => rfl
  | false =>
    have hins : insert_block s snap locator block_id presence =
        (true, save_path s snap
          ((load_path s snap locator).set_leaf block_id presence)) := by
      simp [insert_block, hlf]
    rw [hins]
    set q : Path := (load_path s snap locator).set_leaf block_id presence
      with hq
    have hwf : PathWF q := recompute_wf _
    have hql : q.locator = locator := load_path_locator s snap locator
    have hload := (save_path_find s snap q hwf).2
    rw [hql] at hload
    have hleaf2 : (leafGet locator
        (load_path (save_path s snap q).1 (save_path s snap q).2
          locator).leaves).isSome = true := by
      rw [hload]
      show (leafGet locator
        (⟨(load_path s snap locator).locator, block_id, presence⟩ ::
          (load_path s snap locator).leaves.filter
            (fun m => m.locator ≠ (load_path s snap locator).locator))).isSome
        = true
      simp [leafGet, load_path_locator s snap locator]
    exact remove_then_gone (save_path s snap q).1 (save_path s snap q).2
      locator hleaf2

/-- Initial empty branch for the C5 counterexample. -/
def c5Root : RootNode := ⟨⟨0, [], hashInners []⟩⟩

/-- Store holding only the empty root snapshot. -/
def c5Store : IndexStore := { roots := [c5Root], inners := [], leaves := [] }

/-- The state after inserting block 3 at locator 5 into the empty branch and
then removing that locator. -/
def c5AfterRemove : IndexStore × RootNode :=
  ((remove_block (insert_block c5Store c5Root 5 3 .present).2.1
      (insert_block c5Store c5Root 5 3 .present).2.2 5 none).toOption).getD
    (c5Store, c5Root)

/-- C5 counterexample: insert block 3 at locator 5, remove the locator —
then remove it again. The claim says the repeated remove "is a no-op that
… does not fail"; in the code (`SnapshotData::remove_block`,
branch_data.rs) `path.remove_leaf` finds no leaf and the call fails with
`Error::EntryNotFound`. -/
theorem remove_block_repeat_fails :
    remove_block (insert_block c5Store c5Root 5 3 .present).2.1
        (insert_block c5Store c5Root 5 3 .present).2.2 5 none =
      .ok c5AfterRemove ∧
    remove_block c5AfterRemove.1 c5AfterRemove.2 5 none =
      .error .entryNotFound := by
  constructor
  · rfl
  · rfl

/-- C5 witness: the amended round trip evaluated on the concrete empty
branch — the first remove succeeds and the locator stops resolving. -/
theorem insert_remove_not_found_witness :
    ∃ t : IndexStore × RootNode,
      remove_block (insert_block c5Store c5Root 5 3 .present).2.1
        (insert_block c5Store c5Root 5 3 .present).2.2 5 none = .ok t ∧
      find_block t.1 c5Root.proof.writer_id 5 = .error .locatorNotFound ∧
      remove_block t.1 t.2 5 none = .error .entryNotFound :=
  insert_remove_not_found c5Store c5Root 5 3 .present

end Ouisync
